import Mathlib

/-!
Shallow embedding of the `FeedScheduler` component of the rss-amplifier
repository (the feed-scheduler source file, together with the feed-id
helper of `src/feed-manager.js`).

Modelling conventions:
* JS `Map`s become association lists over `String` keys (`alGet`, `alSet`,
  `alDel` mirror `Map.get`, `Map.set`, `Map.delete`).
* Timestamps (`new Date()`, `Date.now()`) become a `now : Nat` parameter,
  milliseconds since the UTC epoch; `toISOString` round-trips are dropped
  and times are kept numeric.  The process timezone is fixed to UTC, so
  the local-midnight computation of `getNextRunTime` is UTC midnight.
* External collaborators are explicit parameters: the node-cron validator
  is a `cronValid : String → Bool` argument, the feed-content fetcher
  (`importRSSFeed`) and the feed-store upsert (`feedManager.addFeed`)
  become per-attempt response functions in `FetchEnv`, and the feed-store
  responses to `feedManager.addFeed` / `feedManager.removeFeed` inside
  the scheduler operations are `Option String` / `Bool` arguments.
  Per `feed-manager.js`, every `FeedManager` operation catches its own
  exceptions and returns a result object, so collaborator failure is
  modelled as a failure result, never as a thrown exception.
* Best-effort persistence (`saveScheduledFeeds`) never changes in-memory
  state and never throws past the caller, so it is a no-op here.
-/

/-- JS `a || b` for an optional string argument: `undefined` and the
empty string are falsy. -/
def jsOrS : Option String → String → String
  | some s, d => if s = "" then d else s
  | none, d => d

/-- JS `a || b` for an optional numeric argument: `undefined` and `0`
are falsy. -/
def jsOrN : Option Nat → Nat → Nat
  | some n, d => if n = 0 then d else n
  | none, d => d

/-- JS `Map.prototype.get` on an insertion-ordered association list. -/
def alGet {α : Type} : List (String × α) → String → Option α
  | [], _ => none
  | (k, v) :: rest, key => if k = key then some v else alGet rest key

/-- JS `Map.prototype.set`: replace the binding of an existing key in
place, otherwise append a new binding. -/
def alSet {α : Type} : List (String × α) → String → α → List (String × α)
  | [], key, v => [(key, v)]
  | (k, w) :: rest, key, v =>
      if k = key then (key, v) :: rest else (k, w) :: alSet rest key v

/-- JS `Map.prototype.delete`: drop the bindings of the key. -/
def alDel {α : Type} : List (String × α) → String → List (String × α)
  | [], _ => []
  | (k, w) :: rest, key =>
      if k = key then alDel rest key else (k, w) :: alDel rest key

/-- JS `Map.prototype.has`. -/
def alHas {α : Type} (l : List (String × α)) (k : String) : Bool :=
  (alGet l k).isSome

/-- UTF-8 encoding of a list of Unicode code points, as produced by
`Buffer.from(url)` on a JS string. -/
def utf8Bytes : List Char → List Nat
  | [] => []
  | c :: rest =>
      let n := c.toNat
      (if n < 128 then [n]
       else if n < 2048 then [192 + n / 64, 128 + n % 64]
       else if n < 65536 then [224 + n / 4096, 128 + n / 64 % 64, 128 + n % 64]
       else [240 + n / 262144, 128 + n / 4096 % 64, 128 + n / 64 % 64, 128 + n % 64])
      ++ utf8Bytes rest

/-- The standard base64 alphabet used by `Buffer.prototype.toString` with
encoding base64. -/
def base64Alphabet : List Char :=
  "ABCDEFGHIJKLMNOPQRSTUVWXYZabcdefghijklmnopqrstuvwxyz0123456789+/".data

/-- Base64 symbol for a 6-bit value. -/
def b64Char (n : Nat) : Char := base64Alphabet.getD n 'A'

/-- Base64 encoding (with padding) of a byte list, as produced by
`Buffer.from(url).toString` with encoding base64. -/
def base64Encode : List Nat → List Char
  | [] => []
  | [b0] => [b64Char (b0 / 4), b64Char (b0 % 4 * 16), '=', '=']
  | [b0, b1] => [b64Char (b0 / 4), b64Char (b0 % 4 * 16 + b1 / 16), b64Char (b1 % 16 * 4), '=']
  | b0 :: b1 :: b2 :: rest =>
      b64Char (b0 / 4) :: b64Char (b0 % 4 * 16 + b1 / 16) ::
      b64Char (b1 % 16 * 4 + b2 / 64) :: b64Char (b2 % 64) :: base64Encode rest

/-- The character class kept by the regex replace in `generateFeedId`
(everything outside of a-z, A-Z, 0-9 is deleted). -/
def isB64AlphaNum (c : Char) : Bool :=
  ('A' ≤ c && c ≤ 'Z') || ('a' ≤ c && c ≤ 'z') || ('0' ≤ c && c ≤ '9')

/-- `FeedScheduler.generateFeedId`: base64 of the UTF-8 bytes of the URL
with every non-alphanumeric character removed. -/
def generateFeedId (url : String) : String :=
  String.mk ((base64Encode (utf8Bytes url.data)).filter isB64AlphaNum)

/-- `FeedManager.generateFeedId` of `src/feed-manager.js`: textually the
same computation as the scheduler's copy. -/
def fmGenerateFeedId (url : String) : String :=
  String.mk ((base64Encode (utf8Bytes url.data)).filter isB64AlphaNum)

/-- Result shape of `validateCronExpression`. -/
structure CronValidation where
  valid : Bool
  errors : List String
deriving DecidableEq

/-- `validateCronExpression`: an empty expression is rejected up front
(the JS falsiness check on the argument); otherwise the verdict of the
node-cron validator, here the parameter `cronValid`, decides.  node-cron
never throws from `validate`, so the catch arm is dead. -/
def validateCronExpression (cronValid : String → Bool) (expr : String) : CronValidation :=
  if expr = "" then
    { valid := false, errors := ["Cron expression is required and must be a string"] }
  else if cronValid expr then { valid := true, errors := [] }
  else { valid := false, errors := ["Invalid cron expression format"] }

/-- Longest leading run of decimal digits. -/
def takeDigits : List Char → List Char
  | [] => []
  | c :: rest => if c.isDigit then c :: takeDigits rest else []

/-- Numeric value of a digit list. -/
def digitsVal (cs : List Char) : Nat :=
  cs.foldl (fun a c => a * 10 + (c.toNat - 48)) 0

/-- JS `parseInt` restricted to the shapes reachable here: the argument
is a space-free token tail, so `parseInt` reads the leading digit run
and is NaN (here `none`) when there is none. -/
def parseLeadingNat (cs : List Char) : Option Nat :=
  let ds := takeDigits cs
  if ds.isEmpty then none else some (digitsVal ds)

/-- `getNextRunTime`: hand-rolled next-fire-time approximation over a few
common cron shapes, else a flat 30 minutes.  The source takes
`split(' ')[0].substring(2)` (resp. the second token) before `parseInt`;
since tokens are space-free, parsing the leading digits of the remainder
after the matched prefix is the same computation.  For cron-validated
expressions the digit parse always succeeds; the `none` fallbacks mirror
an unreachable branch (the source would build an invalid Date there).
The daily-midnight branch uses local midnight in the source; the process
timezone is modelled as UTC. -/
def getNextRunTime (expr : String) (now : Nat) : Nat :=
  match expr.data with
  | '*' :: '/' :: rest =>
      match parseLeadingNat rest with
      | some m => now + m * 60000
      | none => now + 1800000
  | '0' :: ' ' :: '*' :: '/' :: rest =>
      match parseLeadingNat rest with
      | some h => now + h * 3600000
      | none => now + 1800000
  | _ =>
      if expr = "0 0 * * *" then (now / 86400000 + 1) * 86400000
      else now + 1800000

/-- One per-feed schedule record as stored in `this.scheduledFeeds`.
`nextRun` is always set on a stored record; `lastRun` / `lastSuccess`
start as `null`. -/
structure ScheduledFeed where
  id : String
  url : String
  title : String
  interval : String
  nextRun : Nat
  lastRun : Option Nat
  lastSuccess : Option Nat
  failureCount : Nat
  enabled : Bool
deriving DecidableEq

/-- A live node-cron job handle as stored in `this.activeJobs`: the cron
expression it was created with and whether its timer is currently
scheduled (`job.start()` / `job.stop()` toggle it). -/
structure Job where
  interval : String
  scheduled : Bool
deriving DecidableEq

/-- `this.stats`. -/
structure EngineStats where
  totalFeeds : Nat
  successfulUpdates : Nat
  failedUpdates : Nat
  lastUpdateTime : Option Nat
deriving DecidableEq

/-- The constructor-resolved scheduler options that the modelled
operations read (`defaultInterval`, `retryAttempts`, `retryDelay`). -/
structure SchedOpts where
  defaultInterval : String := "*/30 * * * *"
  retryAttempts : Nat := 3
  retryDelay : Nat := 5000
deriving DecidableEq

/-- The mutable state of one `FeedScheduler` instance. -/
structure SchedState where
  opts : SchedOpts
  scheduledFeeds : List (String × ScheduledFeed)
  activeJobs : List (String × Job)
  running : Bool
  paused : Bool
  stats : EngineStats
deriving DecidableEq

/-- The state of a freshly constructed scheduler (empty backing store). -/
def initialState (opts : SchedOpts) : SchedState :=
  { opts := opts
    scheduledFeeds := []
    activeJobs := []
    running := false
    paused := false
    stats := { totalFeeds := 0, successfulUpdates := 0, failedUpdates := 0, lastUpdateTime := none } }

/-- The recognized keys of the `addFeed` options bag.  `some x` means the
key is present with value `x`; a present key is spread over the computed
record fields (`{ ...defaults, ...options }`).  For `lastRun` and
`lastSuccess` a present value may itself be `null` (`some none`). -/
structure FeedOptions where
  interval : Option String := none
  title : Option String := none
  id : Option String := none
  url : Option String := none
  nextRun : Option Nat := none
  lastRun : Option (Option Nat) := none
  lastSuccess : Option (Option Nat) := none
  failureCount : Option Nat := none
  enabled : Option Bool := none
deriving DecidableEq

/-- The record object literal built inside `addFeed`: computed defaults
first, then `...options` overriding every present key. -/
def buildScheduledFeed (feedId url interval : String) (nextRun : Nat) (o : FeedOptions) :
    ScheduledFeed :=
  { id := o.id.getD feedId
    url := o.url.getD url
    title := o.title.getD ""
    interval := o.interval.getD interval
    nextRun := o.nextRun.getD nextRun
    lastRun := o.lastRun.getD none
    lastSuccess := o.lastSuccess.getD none
    failureCount := o.failureCount.getD 0
    enabled := o.enabled.getD true }

/-- Result of `FeedScheduler.addFeed`. -/
inductive AddResult where
  | ok (feedId : String) (nextRun : Nat) (feed : ScheduledFeed)
  | fail (error : String)
deriving DecidableEq

/-- `FeedScheduler.createCronJob`: `createScheduledJob` hands the
record's stored interval to `cron.schedule`, which throws on a pattern
the node-cron validator rejects; the surrounding catch logs and skips,
so a job is stored only when the record's stored interval is
schedulable.  (An enabled record with an unschedulable stored interval
is reachable: `addFeed(url, { interval: "" })` validates the default
interval but the options spread stores `""`.) -/
def createCronJob (cronValid : String → Bool) (jobs : List (String × Job))
    (feedId : String) (feed : ScheduledFeed) : List (String × Job) :=
  if cronValid feed.interval then alSet jobs feedId ⟨feed.interval, true⟩ else jobs

/-- `FeedScheduler.addFeed`.  `storeResp` is the feed-store collaborator's
response to `feedManager.addFeed` (`none` = success, `some e` = a failure
result with message `e`, which the source returns unchanged).  The third
component of the result records whether the feed store was contacted.
On success the new job is created (through `createCronJob`, which skips
an unschedulable stored interval) only when the engine is running and
not paused, and `stats.totalFeeds` is then assigned the map's size. -/
def schedAddFeed (cronValid : String → Bool) (storeResp : Option String) (now : Nat)
    (url : String) (o : FeedOptions) (s : SchedState) : AddResult × SchedState × Bool :=
  let feedId := generateFeedId url
  let interval := jsOrS o.interval s.opts.defaultInterval
  let v := validateCronExpression cronValid interval
  if !v.valid then
    (.fail (String.append "Invalid cron expression: " (String.intercalate ", " v.errors)), s, false)
  else
    match storeResp with
    | some e => (.fail e, s, true)
    | none =>
      let nextRun := getNextRunTime interval now
      let feed := buildScheduledFeed feedId url interval nextRun o
      let feeds' := alSet s.scheduledFeeds feedId feed
      let jobs' :=
        if s.running && !s.paused then createCronJob cronValid s.activeJobs feedId feed
        else s.activeJobs
      let stats' := { s.stats with totalFeeds := feeds'.length }
      (.ok feedId nextRun feed,
       { s with scheduledFeeds := feeds', activeJobs := jobs', stats := stats' }, true)

/-- Result of `FeedScheduler.removeFeed` / plain success-flag results. -/
inductive SimpleResult where
  | ok
  | fail (error : String)
deriving DecidableEq

/-- `FeedScheduler.removeFeed`.  The live job is stopped and dropped, the
feed-store collaborator is told to drop the feed — its result object is
discarded by the source (`storeOk` is threaded only to show the outcome
is independent of it; per `feed-manager.js` the collaborator never
throws) — then the record is deleted and `stats.totalFeeds` is assigned
the new map size. -/
def schedRemoveFeed (storeOk : Bool) (feedId : String) (s : SchedState) :
    SimpleResult × SchedState :=
  if !alHas s.scheduledFeeds feedId then (.fail "Scheduled feed not found", s)
  else
    let _ := storeOk
    let jobs' := alDel s.activeJobs feedId
    let feeds' := alDel s.scheduledFeeds feedId
    let stats' := { s.stats with totalFeeds := feeds'.length }
    (.ok, { s with activeJobs := jobs', scheduledFeeds := feeds', stats := stats' })

/-- Result of `FeedScheduler.updateFeedSchedule`. -/
inductive UpdateResult where
  | ok (nextRun : Nat)
  | fail (error : String)
deriving DecidableEq

/-- `FeedScheduler.updateFeedSchedule`: unknown id and invalid cron are
failure results; on success the record's interval and `nextRun` are
updated and — only when the engine is running and not paused — the old
job is stopped and removed and a fresh job on the new interval is
created. -/
def schedUpdateFeedSchedule (cronValid : String → Bool) (now : Nat)
    (feedId newInterval : String) (s : SchedState) : UpdateResult × SchedState :=
  match alGet s.scheduledFeeds feedId with
  | none => (.fail "Scheduled feed not found", s)
  | some feed =>
    let v := validateCronExpression cronValid newInterval
    if !v.valid then
      (.fail (String.append "Invalid cron expression: " (String.intercalate ", " v.errors)), s)
    else
      let feed' := { feed with interval := newInterval, nextRun := getNextRunTime newInterval now }
      let feeds' := alSet s.scheduledFeeds feedId feed'
      let jobs' :=
        if s.running && !s.paused then
          alSet (alDel s.activeJobs feedId) feedId ⟨feed'.interval, true⟩
        else s.activeJobs
      (.ok feed'.nextRun, { s with scheduledFeeds := feeds', activeJobs := jobs' })

/-- `FeedScheduler.listScheduledFeeds`: the record values in insertion
order. -/
def listScheduledFeeds (s : SchedState) : List ScheduledFeed :=
  s.scheduledFeeds.map Prod.snd

/-- `FeedScheduler.start`: a no-op when already running, otherwise flips
to running/unpaused and calls `createCronJob` for each enabled record in
map order — so a job lands in the table only for enabled records whose
stored interval is schedulable. -/
def schedStart (cronValid : String → Bool) (s : SchedState) : SchedState :=
  if s.running then s
  else
    let jobs' := s.scheduledFeeds.foldl
      (fun jobs p => if p.2.enabled then createCronJob cronValid jobs p.1 p.2 else jobs)
      s.activeJobs
    { s with running := true, paused := false, activeJobs := jobs' }

/-- `FeedScheduler.stop`: a no-op when not running, otherwise stops every
job and clears the job table. -/
def schedStop (s : SchedState) : SchedState :=
  if !s.running then s
  else { s with running := false, paused := false, activeJobs := [] }

/-- `FeedScheduler.pause`: only from running-and-unpaused; stops every
job's timer but keeps the entries. -/
def schedPause (s : SchedState) : SchedState :=
  if !s.running || s.paused then s
  else { s with paused := true,
                activeJobs := s.activeJobs.map (fun p => (p.1, { p.2 with scheduled := false })) }

/-- `FeedScheduler.resume`: only from running-and-paused; restarts every
job already present in the job table (creates none). -/
def schedResume (s : SchedState) : SchedState :=
  if !s.running || !s.paused then s
  else { s with paused := false,
                activeJobs := s.activeJobs.map (fun p => (p.1, { p.2 with scheduled := true })) }

/-- Per-attempt response of the external fetcher `importRSSFeed`:
success flag, number of items of the parsed feed, error message. -/
structure ImportResult where
  success : Bool
  items : Nat
  error : String

/-- Collaborator behaviour over one `fetchAndUpdateFeed` invocation,
indexed by the attempt number: the fetcher's response and whether the
feed-store upsert (`feedManager.addFeed`) succeeds at that attempt. -/
structure FetchEnv where
  fetch : Nat → ImportResult
  storeOk : Nat → Bool

/-- Result of `fetchAndUpdateFeed`: the success object carries
`itemsAdded` and the succeeding attempt number, the failure object the
last error and the total attempt count. -/
inductive FetchOutcome where
  | ok (itemsAdded attempt : Nat)
  | err (error : String) (attempts : Nat)
deriving DecidableEq

/-- The final-attempt failure arm of `fetchAndUpdateFeed`:
`stats.failedUpdates` is incremented, then — when the schedule record
exists — `lastRun` is set, `failureCount` incremented, `nextRun`
recomputed from the record's interval; the result reports the error and
`attempts = maxRetries`. -/
def fetchFailureUpdate (url : String) (now maxRetries : Nat) (errMsg : String)
    (s : SchedState) : FetchOutcome × SchedState :=
  let s' := { s with stats := { s.stats with failedUpdates := s.stats.failedUpdates + 1 } }
  let feedId := generateFeedId url
  let s'' :=
    match alGet s'.scheduledFeeds feedId with
    | some f =>
        let f' := { f with lastRun := some now, failureCount := f.failureCount + 1,
                           nextRun := getNextRunTime f.interval now }
        { s' with scheduledFeeds := alSet s'.scheduledFeeds feedId f' }
    | none => s'
  (.err errMsg maxRetries, s'')

/-- The successful-attempt state update of `fetchAndUpdateFeed`:
`stats.successfulUpdates` and `lastUpdateTime` are updated first, then —
when the schedule record exists — `lastRun`, `lastSuccess`,
`failureCount := 0` and a recomputed `nextRun` are stored. -/
def fetchSuccessUpdate (url : String) (now : Nat) (s : SchedState) : SchedState :=
  let s' := { s with stats := { s.stats with
                successfulUpdates := s.stats.successfulUpdates + 1,
                lastUpdateTime := some now } }
  let feedId := generateFeedId url
  match alGet s'.scheduledFeeds feedId with
  | some f =>
      let f' := { f with lastRun := some now, lastSuccess := some now,
                         failureCount := 0,
                         nextRun := getNextRunTime f.interval now }
      { s' with scheduledFeeds := alSet s'.scheduledFeeds feedId f' }
  | none => s'

/-- The attempt loop of `fetchAndUpdateFeed`.  `fuel` is the number of
attempts still allowed (the wrapper passes `maxRetries` with
`attempt = 1`, so `attempt + fuel = maxRetries + 1` throughout).  An
attempt succeeds when the fetcher succeeds and the feed-store upsert
succeeds (an upsert failure is thrown and caught like a fetch failure).
A non-final failure only waits `retryDelay` (time is external here) and
recurses; the final failure takes `fetchFailureUpdate`.  The fuel-0 arm
is unreachable from the wrapper (in the source a non-positive
`maxRetries` would skip the loop and return `undefined`). -/
def fetchAttempts (env : FetchEnv) (url : String) (now maxRetries : Nat) :
    Nat → Nat → SchedState → FetchOutcome × SchedState
  | _, 0, s => (.err "" 0, s)
  | attempt, fuel + 1, s =>
    let r := env.fetch attempt
    if r.success && env.storeOk attempt then
      (.ok r.items attempt, fetchSuccessUpdate url now s)
    else
      let errMsg := if r.success then "Feed store update failed" else r.error
      if attempt == maxRetries then fetchFailureUpdate url now maxRetries errMsg s
      else fetchAttempts env url now maxRetries (attempt + 1) fuel s

/-- `FeedScheduler.fetchAndUpdateFeed`: resolves the retry budget with JS
`||` (an absent or zero per-call option falls back to the constructor
option) and runs attempts `1..maxRetries`. -/
def fetchAndUpdateFeed (env : FetchEnv) (optRetry : Option Nat) (url : String) (now : Nat)
    (s : SchedState) : FetchOutcome × SchedState :=
  let maxRetries := jsOrN optRetry s.opts.retryAttempts
  fetchAttempts env url now maxRetries 1 maxRetries s

/-- One public scheduler operation together with the collaborator
responses it consumes, for stating whole-lifetime invariants. -/
inductive SchedOp where
  | addF (cronValid : String → Bool) (storeResp : Option String) (now : Nat)
         (url : String) (o : FeedOptions)
  | removeF (storeOk : Bool) (feedId : String)
  | updateF (cronValid : String → Bool) (now : Nat) (feedId newInterval : String)
  | startE (cronValid : String → Bool)
  | stopE
  | pauseE
  | resumeE
  | fetchF (env : FetchEnv) (optRetry : Option Nat) (url : String) (now : Nat)

/-- State transition of one scheduler operation. -/
def applyOp : SchedOp → SchedState → SchedState
  | .addF cronValid storeResp now url o, s => (schedAddFeed cronValid storeResp now url o s).2.1
  | .removeF storeOk feedId, s => (schedRemoveFeed storeOk feedId s).2
  | .updateF cronValid now feedId newInterval, s =>
      (schedUpdateFeedSchedule cronValid now feedId newInterval s).2
  | .startE cronValid, s => schedStart cronValid s
  | .stopE, s => schedStop s
  | .pauseE, s => schedPause s
  | .resumeE, s => schedResume s
  | .fetchF env optRetry url now, s => (fetchAndUpdateFeed env optRetry url now s).2

/-- A concrete stand-in for the node-cron validator accepting the two
cron expressions the examples use. -/
def cvAccepts : String → Bool :=
  fun e => e = "*/5 * * * *" || e = "*/10 * * * *"

/-- A feed URL used by the concrete examples. -/
def demoUrl : String := "http://a.com/feed"

/-- Options bag used by the concrete examples: a five-minute interval. -/
def demoOpts : FeedOptions := { interval := some "*/5 * * * *" }

/-- A freshly constructed scheduler with default options. -/
def s0 : SchedState := initialState {}

/-- The scheduler after a successful `addFeed` of `demoUrl` (stopped,
one enabled record, empty job table). -/
def sOne : SchedState := (schedAddFeed cvAccepts none 1000 demoUrl demoOpts s0).2.1

/-- The record stored in `sOne` for `demoUrl`. -/
def feedDemo : ScheduledFeed :=
  { id := generateFeedId demoUrl, url := demoUrl, title := "", interval := "*/5 * * * *",
    nextRun := 301000, lastRun := none, lastSuccess := none, failureCount := 0, enabled := true }

/-- A fetcher that fails on every attempt (with a store that always
accepts, which is never reached). -/
def envAllFail : FetchEnv :=
  { fetch := fun _ => ⟨false, 0, "network down"⟩, storeOk := fun _ => true }

/-- A fetcher that fails on attempt 1 and succeeds from attempt 2 on,
with a store that always accepts. -/
def envSecondTry : FetchEnv :=
  { fetch := fun a => if a ≤ 1 then ⟨false, 0, "blip"⟩ else ⟨true, 4, ""⟩,
    storeOk := fun _ => true }

/-- `sOne` started: running, unpaused, one live job. -/
def sRun : SchedState := schedStart cvAccepts sOne

/-- `sRun` paused: `isRunning()` still true, job kept but stopped. -/
def sC3 : SchedState := schedPause sRun

/-- A successful `updateFeedSchedule` issued while paused. -/
def uC3 : UpdateResult × SchedState :=
  schedUpdateFeedSchedule cvAccepts 5000 (generateFeedId demoUrl) "*/10 * * * *" sC3

/-- `removeFeed` on the only feed of `sOne`. -/
def remDemo : SimpleResult × SchedState := schedRemoveFeed true (generateFeedId demoUrl) sOne

/-- An empty running-and-paused scheduler (start then pause on `s0`). -/
def sPaused : SchedState := schedPause (schedStart cvAccepts s0)

/-- `addFeed` issued while the engine is paused. -/
def addWhilePaused : AddResult × SchedState × Bool :=
  schedAddFeed cvAccepts none 1000 demoUrl demoOpts sPaused

/-- The paused scheduler of `addWhilePaused` after `resume()`. -/
def sAfterResume : SchedState := schedResume addWhilePaused.2.1

/-- A successful `updateFeedSchedule` right after the resume (no `stop()`
or `start()` anywhere in this history). -/
def updAfterResume : UpdateResult × SchedState :=
  schedUpdateFeedSchedule cvAccepts 2000 (generateFeedId demoUrl) "*/10 * * * *" sAfterResume

/-- Options bag with caller-supplied `enabled` and `failureCount`. -/
def oC9 : FeedOptions :=
  { interval := some "*/5 * * * *", enabled := some false, failureCount := some 7 }

/-- A validator stand-in that also accepts the constructor's default
thirty-minute interval (and, like node-cron, rejects the empty
pattern). -/
def cvAccepts30 : String → Bool :=
  fun e => e = "*/30 * * * *" || e = "*/5 * * * *"

/-- The scheduler after `addFeed(demoUrl, { interval: "" })`: the JS `||`
resolves the empty option to the default interval, which validates, but
the options spread then stores `interval := ""` — an enabled record
whose stored interval `cron.schedule` rejects. -/
def sEmptyInt : SchedState :=
  (schedAddFeed cvAccepts30 none 1000 demoUrl { interval := some "" } s0).2.1

theorem alGet_alSet_self {α : Type} (l : List (String × α)) (k : String) (v : α) :
    alGet (alSet l k v) k = some v := by
  induction l with
  | nil => simp [alSet, alGet]
  | cons p rest ih =>
    obtain ⟨a, b⟩ := p
    by_cases h : a = k
    · simp [alSet, alGet, h]
    · simp [alSet, alGet, h, ih]

theorem alGet_alDel_self {α : Type} (l : List (String × α)) (k : String) :
    alGet (alDel l k) k = none := by
  induction l with
  | nil => simp [alDel, alGet]
  | cons p rest ih =>
    obtain ⟨a, b⟩ := p
    by_cases h : a = k
    · simp [alDel, h, ih]
    · simp [alDel, alGet, h, ih]

theorem not_mem_keys_alDel {α : Type} (l : List (String × α)) (k : String) :
    k ∉ (alDel l k).map Prod.fst := by
  induction l with
  | nil => simp [alDel]
  | cons p rest ih =>
    obtain ⟨a, b⟩ := p
    by_cases h : a = k
    · simpa [alDel, h] using ih
    · simp [alDel, h, ih]
      exact fun hk => h hk.symm

/-- C4: the feed-id derivation is deterministic and shared verbatim by
the scheduler and the feed store, but it is not injective: stripping the
base64 padding makes the two distinct URLs "http://a.com/feed" and
"http://a.com/feed?" collide, contradicting the uniqueness the claim
(and the source's own comment) asserts. -/
theorem generateFeedId_collision_bug :
    generateFeedId "http://a.com/feed" = generateFeedId "http://a.com/feed?" ∧
    ("http://a.com/feed" : String) ≠ "http://a.com/feed?" ∧
    (∀ u : String, generateFeedId u = fmGenerateFeedId u) :=
  ⟨by decide, by decide, fun _ => rfl⟩

/-- C5: `addFeed` is atomic on failure.  An invalid interval yields a
failure result, an unchanged state, and the feed store is never
contacted; a feed-store registration failure is propagated unchanged
and also leaves the state untouched. -/
theorem addFeed_failure_atomic (cronValid : String → Bool) (storeResp : Option String)
    (now : Nat) (url : String) (o : FeedOptions) (s : SchedState) :
    ((validateCronExpression cronValid (jsOrS o.interval s.opts.defaultInterval)).valid = false →
      schedAddFeed cronValid storeResp now url o s =
        (.fail (String.append "Invalid cron expression: " (String.intercalate ", "
          (validateCronExpression cronValid (jsOrS o.interval s.opts.defaultInterval)).errors)),
         s, false)) ∧
    (∀ e, (validateCronExpression cronValid (jsOrS o.interval s.opts.defaultInterval)).valid = true →
      storeResp = some e →
      schedAddFeed cronValid storeResp now url o s = (.fail e, s, true)) := by
  constructor
  · intro hv
    simp [schedAddFeed, hv]
  · intro e hv he
    subst he
    simp [schedAddFeed, hv]

/-- C5 witness: both failure modes at concrete inputs (a rejected cron
expression on the default interval, and a feed-store failure on a valid
one). -/
theorem addFeed_failure_atomic_witness :
    schedAddFeed cvAccepts none 0 demoUrl ({} : FeedOptions) s0 =
      (.fail "Invalid cron expression: Invalid cron expression format", s0, false) ∧
    schedAddFeed cvAccepts (some "store down") 0 demoUrl demoOpts s0 =
      (.fail "store down", s0, true) := by
  constructor
  · exact (addFeed_failure_atomic cvAccepts none 0 demoUrl {} s0).1 (by decide)
  · exact (addFeed_failure_atomic cvAccepts (some "store down") 0 demoUrl demoOpts s0).2
      "store down" (by decide) rfl

/-- C6: `removeFeed` on an unknown id returns a failure result and leaves
the state unchanged; on a known id it returns success and — for every
feed-store response, whose result object the source discards — removes
the live job and the schedule record, so the removed id no longer keys
any scheduled feed. -/
theorem removeFeed_found_and_missing (storeOk : Bool) (feedId : String) (s : SchedState) :
    (alHas s.scheduledFeeds feedId = false →
      schedRemoveFeed storeOk feedId s = (.fail "Scheduled feed not found", s)) ∧
    (alHas s.scheduledFeeds feedId = true →
      (schedRemoveFeed storeOk feedId s).1 = .ok ∧
      alGet (schedRemoveFeed storeOk feedId s).2.scheduledFeeds feedId = none ∧
      feedId ∉ ((schedRemoveFeed storeOk feedId s).2.scheduledFeeds).map Prod.fst ∧
      alGet (schedRemoveFeed storeOk feedId s).2.activeJobs feedId = none) := by
  constructor
  · intro h
    simp [schedRemoveFeed, h]
  · intro h
    refine ⟨?_, ?_, ?_, ?_⟩
    · simp [schedRemoveFeed, h]
    · simp [schedRemoveFeed, h, alGet_alDel_self]
    · simp only [schedRemoveFeed, h, Bool.not_true, Bool.false_eq_true, if_false]
      exact not_mem_keys_alDel s.scheduledFeeds feedId
    · simp [schedRemoveFeed, h, alGet_alDel_self]

/-- C6 witness: removing an unknown id from `sOne` fails without a state
change, and removing the known demo feed succeeds and purges it, with
both feed-store responses exercised. -/
theorem removeFeed_found_and_missing_witness :
    schedRemoveFeed true "unknown" sOne = (.fail "Scheduled feed not found", sOne) ∧
    (schedRemoveFeed false (generateFeedId demoUrl) sOne).1 = .ok ∧
    alGet (schedRemoveFeed false (generateFeedId demoUrl) sOne).2.scheduledFeeds
      (generateFeedId demoUrl) = none := by
  refine ⟨(removeFeed_found_and_missing true "unknown" sOne).1 (by decide), ?_, ?_⟩
  · exact ((removeFeed_found_and_missing false (generateFeedId demoUrl) sOne).2 (by decide)).1
  · exact ((removeFeed_found_and_missing false (generateFeedId demoUrl) sOne).2 (by decide)).2.1

/-- C9: on a successful `addFeed`, every recognized key present in the
options bag is spread over the computed defaults, so caller-supplied
`id`, `nextRun`, `lastRun`, `lastSuccess`, `failureCount` and `enabled`
values replace the scheduler-computed ones in the stored record (which
is still keyed by the URL-derived feed id). -/
theorem addFeed_options_override (cronValid : String → Bool) (now : Nat) (url : String)
    (o : FeedOptions) (s : SchedState)
    (hv : (validateCronExpression cronValid (jsOrS o.interval s.opts.defaultInterval)).valid = true) :
    ∃ feed,
      alGet (schedAddFeed cronValid none now url o s).2.1.scheduledFeeds (generateFeedId url) =
        some feed ∧
      (∀ b, o.enabled = some b → feed.enabled = b) ∧
      (∀ n, o.failureCount = some n → feed.failureCount = n) ∧
      (∀ i, o.id = some i → feed.id = i) ∧
      (∀ v, o.lastRun = some v → feed.lastRun = v) ∧
      (∀ v, o.lastSuccess = some v → feed.lastSuccess = v) ∧
      (∀ t, o.nextRun = some t → feed.nextRun = t) := by
  refine ⟨buildScheduledFeed (generateFeedId url) url
      (jsOrS o.interval s.opts.defaultInterval)
      (getNextRunTime (jsOrS o.interval s.opts.defaultInterval) now) o, ?_, ?_, ?_, ?_, ?_, ?_, ?_⟩
  · simp [schedAddFeed, hv, alGet_alSet_self]
  · intro b hb; simp [buildScheduledFeed, hb]
  · intro n hn; simp [buildScheduledFeed, hn]
  · intro i hi; simp [buildScheduledFeed, hi]
  · intro v hv'; simp [buildScheduledFeed, hv']
  · intro v hv'; simp [buildScheduledFeed, hv']
  · intro t ht; simp [buildScheduledFeed, ht]

/-- C9 witness: adding `demoUrl` with caller-supplied
`enabled := false` and `failureCount := 7` stores a disabled record with
failure count 7. -/
theorem addFeed_options_override_witness :
    ∃ feed,
      alGet (schedAddFeed cvAccepts none 1000 demoUrl oC9 s0).2.1.scheduledFeeds
        (generateFeedId demoUrl) = some feed ∧
      feed.enabled = false ∧ feed.failureCount = 7 := by
  obtain ⟨feed, hget, hen, hfc, _⟩ :=
    addFeed_options_override cvAccepts 1000 demoUrl oC9 s0 (by decide)
  exact ⟨feed, hget, hen false rfl, hfc 7 rfl⟩

theorem fetchAttempts_step (env : FetchEnv) (url : String) (now maxR a f : Nat) (s : SchedState)
    (hf : (env.fetch a).success = false) (hne : a ≠ maxR) :
    fetchAttempts env url now maxR a (f + 1) s = fetchAttempts env url now maxR (a + 1) f s := by
  simp [fetchAttempts, hf, hne]

theorem fetchAttempts_all_fail (env : FetchEnv) (url : String) (now maxR : Nat)
    (hfail : ∀ a, (env.fetch a).success = false) :
    ∀ (f a : Nat) (s : SchedState), a + f = maxR + 1 → 1 ≤ f →
      fetchAttempts env url now maxR a f s =
        fetchFailureUpdate url now maxR (env.fetch maxR).error s := by
  intro f
  induction f with
  | zero => intro a s _ h; exact absurd h (by omega)
  | succ g ih =>
    intro a s ha _
    by_cases hg : g = 0
    · subst hg
      have haR : a = maxR := by omega
      subst haR
      simp [fetchAttempts, hfail a]
    · have hne : a ≠ maxR := by omega
      rw [fetchAttempts_step env url now maxR a g s (hfail a) hne]
      exact ih (a + 1) s (by omega) (by omega)

theorem fetchAttempts_first_success (env : FetchEnv) (url : String) (now maxR k : Nat)
    (hk : k + 1 ≤ maxR)
    (hfail : ∀ b, 1 ≤ b → b ≤ k → (env.fetch b).success = false)
    (hsucc : (env.fetch (k + 1)).success = true)
    (hstore : env.storeOk (k + 1) = true) :
    ∀ (f a : Nat) (s : SchedState), a + f = maxR + 1 → 1 ≤ a → a ≤ k + 1 →
      fetchAttempts env url now maxR a f s =
        (.ok (env.fetch (k + 1)).items (k + 1), fetchSuccessUpdate url now s) := by
  intro f
  induction f with
  | zero => intro a s ha h1 hak; exact absurd ha (by omega)
  | succ g ih =>
    intro a s ha h1 hak
    by_cases he : a = k + 1
    · subst he
      simp [fetchAttempts, hsucc, hstore]
    · have hfa : (env.fetch a).success = false := hfail a h1 (by omega)
      have hne : a ≠ maxR := by omega
      rw [fetchAttempts_step env url now maxR a g s hfa hne]
      exact ih (a + 1) s (by omega) (by omega) (by omega)

/-- C1: when the fetcher fails on every one of the `N = retryAttempts`
allowed attempts and the feed's schedule record exists, the routine
returns a failure result with `attempts = N`, `failedUpdates` goes up by
one, and the record's `failureCount` increases by exactly 1 over the
whole invocation — a non-final failing attempt (last conjunct) passes
the state through completely untouched. -/
theorem fetchAndUpdateFeed_all_attempts_fail (env : FetchEnv) (optRetry : Option Nat)
    (url : String) (now : Nat) (s : SchedState) (feed : ScheduledFeed)
    (hN : 1 ≤ jsOrN optRetry s.opts.retryAttempts)
    (hfail : ∀ a, (env.fetch a).success = false)
    (hrec : alGet s.scheduledFeeds (generateFeedId url) = some feed) :
    (fetchAndUpdateFeed env optRetry url now s).1 =
      .err (env.fetch (jsOrN optRetry s.opts.retryAttempts)).error
        (jsOrN optRetry s.opts.retryAttempts) ∧
    alGet (fetchAndUpdateFeed env optRetry url now s).2.scheduledFeeds (generateFeedId url) =
      some { feed with lastRun := some now, failureCount := feed.failureCount + 1,
                       nextRun := getNextRunTime feed.interval now } ∧
    (fetchAndUpdateFeed env optRetry url now s).2.stats.failedUpdates =
      s.stats.failedUpdates + 1 ∧
    (∀ a f s₀, a ≠ jsOrN optRetry s.opts.retryAttempts →
      fetchAttempts env url now (jsOrN optRetry s.opts.retryAttempts) a (f + 1) s₀ =
      fetchAttempts env url now (jsOrN optRetry s.opts.retryAttempts) (a + 1) f s₀) := by
  have hrun : fetchAndUpdateFeed env optRetry url now s =
      fetchFailureUpdate url now (jsOrN optRetry s.opts.retryAttempts)
        (env.fetch (jsOrN optRetry s.opts.retryAttempts)).error s := by
    simp only [fetchAndUpdateFeed]
    exact fetchAttempts_all_fail env url now (jsOrN optRetry s.opts.retryAttempts) hfail
      (jsOrN optRetry s.opts.retryAttempts) 1 s (by omega) hN
  refine ⟨?_, ?_, ?_, ?_⟩
  · rw [hrun]; simp [fetchFailureUpdate]
  · rw [hrun]; simp [fetchFailureUpdate, hrec, alGet_alSet_self]
  · rw [hrun]; simp [fetchFailureUpdate, hrec]
  · intro a f s₀ hne
    exact fetchAttempts_step env url now (jsOrN optRetry s.opts.retryAttempts) a f s₀
      (hfail a) hne

/-- C1 witness: a fetcher failing all three default attempts against the
one-feed scheduler `sOne`. -/
theorem fetchAndUpdateFeed_all_attempts_fail_witness :
    (fetchAndUpdateFeed envAllFail none demoUrl 2000 sOne).1 = .err "network down" 3 ∧
    alGet (fetchAndUpdateFeed envAllFail none demoUrl 2000 sOne).2.scheduledFeeds
      (generateFeedId demoUrl) =
      some { feedDemo with lastRun := some 2000, failureCount := 1, nextRun := 302000 } := by
  have h := fetchAndUpdateFeed_all_attempts_fail envAllFail none demoUrl 2000 sOne feedDemo
    (by decide) (fun _ => rfl) (by decide)
  constructor
  · rw [h.1]; decide
  · rw [h.2.1]; decide

/-- C2: when the fetcher fails the first `k < N` attempts and then
succeeds (with the feed-store upsert accepting, as the in-repo
`FeedManager.addFeed` always does), the routine reports success with
`attempt = k + 1` and the items of the fetched feed, resets the record's
`failureCount` to 0, stamps `lastRun` and `lastSuccess` with the attempt
time, recomputes `nextRun` from the record's interval, and increments
`successfulUpdates`. -/
theorem fetchAndUpdateFeed_succeeds_after_failures (env : FetchEnv) (optRetry : Option Nat)
    (url : String) (now : Nat) (s : SchedState) (feed : ScheduledFeed) (k : Nat)
    (hk : k + 1 ≤ jsOrN optRetry s.opts.retryAttempts)
    (hfail : ∀ b, 1 ≤ b → b ≤ k → (env.fetch b).success = false)
    (hsucc : (env.fetch (k + 1)).success = true)
    (hstore : env.storeOk (k + 1) = true)
    (hrec : alGet s.scheduledFeeds (generateFeedId url) = some feed) :
    (fetchAndUpdateFeed env optRetry url now s).1 =
      .ok (env.fetch (k + 1)).items (k + 1) ∧
    alGet (fetchAndUpdateFeed env optRetry url now s).2.scheduledFeeds (generateFeedId url) =
      some { feed with lastRun := some now, lastSuccess := some now, failureCount := 0,
                       nextRun := getNextRunTime feed.interval now } ∧
    (fetchAndUpdateFeed env optRetry url now s).2.stats.successfulUpdates =
      s.stats.successfulUpdates + 1 := by
  have hrun : fetchAndUpdateFeed env optRetry url now s =
      (.ok (env.fetch (k + 1)).items (k + 1), fetchSuccessUpdate url now s) := by
    simp only [fetchAndUpdateFeed]
    exact fetchAttempts_first_success env url now (jsOrN optRetry s.opts.retryAttempts) k hk
      hfail hsucc hstore (jsOrN optRetry s.opts.retryAttempts) 1 s (by omega) (by omega)
      (by omega)
  refine ⟨?_, ?_, ?_⟩
  · rw [hrun]
  · rw [hrun]; simp [fetchSuccessUpdate, hrec, alGet_alSet_self]
  · rw [hrun]; simp [fetchSuccessUpdate, hrec]

/-- C2 witness: a fetcher failing attempt 1 and succeeding on attempt 2
against the one-feed scheduler `sOne`. -/
theorem fetchAndUpdateFeed_succeeds_after_failures_witness :
    (fetchAndUpdateFeed envSecondTry none demoUrl 2000 sOne).1 = .ok 4 2 ∧
    alGet (fetchAndUpdateFeed envSecondTry none demoUrl 2000 sOne).2.scheduledFeeds
      (generateFeedId demoUrl) =
      some { feedDemo with lastRun := some 2000, lastSuccess := some 2000, failureCount := 0,
                           nextRun := 302000 } := by
  have h := fetchAndUpdateFeed_succeeds_after_failures envSecondTry none demoUrl 2000 sOne
    feedDemo 1 (by decide) (fun b h1 hb => by have hb1 : b = 1 := by omega
                                              subst hb1; decide) (by decide)
    (by decide) (by decide)
  constructor
  · rw [h.1]; decide
  · rw [h.2.1]; decide

/-- C3 counterexample: with the engine paused — `isRunning()` still true —
a successful `updateFeedSchedule` updates the record but leaves the old
Job in the table bound to the stale five-minute interval, and `resume()`
then restarts that stale Job. -/
theorem updateFeedSchedule_paused_stale_job_counterexample :
    sC3.running = true ∧ sC3.paused = true ∧
    uC3.1 = .ok 605000 ∧
    (alGet uC3.2.scheduledFeeds (generateFeedId demoUrl)).map ScheduledFeed.interval =
      some "*/10 * * * *" ∧
    alGet uC3.2.activeJobs (generateFeedId demoUrl) =
      some { interval := "*/5 * * * *", scheduled := false } ∧
    alGet (schedResume uC3.2).activeJobs (generateFeedId demoUrl) =
      some { interval := "*/5 * * * *", scheduled := true } := by decide

/-- C3 (amended): a successful `updateFeedSchedule` always updates the
record's interval and `nextRun`; the Job is destroyed and recreated on
the new interval only when the engine is running **and not paused** —
while paused, the Job Table is left untouched, so the old Job stays
bound to the stale interval. -/
theorem updateFeedSchedule_rebinds_only_when_unpaused (cronValid : String → Bool) (now : Nat)
    (feedId newInterval : String) (s : SchedState) (feed : ScheduledFeed)
    (hrec : alGet s.scheduledFeeds feedId = some feed)
    (hv : (validateCronExpression cronValid newInterval).valid = true) :
    (schedUpdateFeedSchedule cronValid now feedId newInterval s).1 =
      .ok (getNextRunTime newInterval now) ∧
    alGet (schedUpdateFeedSchedule cronValid now feedId newInterval s).2.scheduledFeeds feedId =
      some { feed with interval := newInterval, nextRun := getNextRunTime newInterval now } ∧
    (s.running = true → s.paused = false →
      alGet (schedUpdateFeedSchedule cronValid now feedId newInterval s).2.activeJobs feedId =
        some { interval := newInterval, scheduled := true }) ∧
    (s.paused = true →
      (schedUpdateFeedSchedule cronValid now feedId newInterval s).2.activeJobs =
        s.activeJobs) := by
  refine ⟨?_, ?_, ?_, ?_⟩
  · simp [schedUpdateFeedSchedule, hrec, hv]
  · simp [schedUpdateFeedSchedule, hrec, hv, alGet_alSet_self]
  · intro hr hp
    simp [schedUpdateFeedSchedule, hrec, hv, hr, hp, alGet_alSet_self]
  · intro hp
    simp [schedUpdateFeedSchedule, hrec, hv, hp]

/-- C3 witness: updating the running, unpaused scheduler `sRun` rebinds
the demo feed's Job to the new ten-minute interval. -/
theorem updateFeedSchedule_rebinds_only_when_unpaused_witness :
    (schedUpdateFeedSchedule cvAccepts 5000 (generateFeedId demoUrl) "*/10 * * * *" sRun).1 =
      .ok 605000 ∧
    alGet (schedUpdateFeedSchedule cvAccepts 5000 (generateFeedId demoUrl) "*/10 * * * *"
        sRun).2.activeJobs (generateFeedId demoUrl) =
      some { interval := "*/10 * * * *", scheduled := true } := by
  have h := updateFeedSchedule_rebinds_only_when_unpaused cvAccepts 5000
    (generateFeedId demoUrl) "*/10 * * * *" sRun feedDemo (by decide) (by decide)
  refine ⟨?_, h.2.2.1 (by decide) (by decide)⟩
  rw [h.1]; decide

theorem alGet_append {α : Type} (l1 l2 : List (String × α)) (k : String) :
    alGet (l1 ++ l2) k =
      match alGet l1 k with
      | some v => some v
      | none => alGet l2 k := by
  induction l1 with
  | nil => simp [alGet]
  | cons p rest ih =>
    obtain ⟨a, b⟩ := p
    by_cases h : a = k <;> simp [alGet, h, ih]

theorem alSet_of_absent {α : Type} (l : List (String × α)) (k : String) (v : α)
    (h : alGet l k = none) : alSet l k v = l ++ [(k, v)] := by
  induction l with
  | nil => simp [alSet]
  | cons p rest ih =>
    obtain ⟨a, b⟩ := p
    by_cases hak : a = k
    · simp [alGet, hak] at h
    · simp only [alGet, hak, if_false] at h
      simp [alSet, hak, ih h]

theorem jobsFold_eq (cronValid : String → Bool) (feeds : List (String × ScheduledFeed))
    (acc : List (String × Job))
    (hnd : (feeds.map Prod.fst).Nodup)
    (hdisj : ∀ k, k ∈ feeds.map Prod.fst → alGet acc k = none) :
    feeds.foldl
      (fun jobs p => if p.2.enabled then createCronJob cronValid jobs p.1 p.2 else jobs) acc
    = acc ++ (feeds.filter (fun p => p.2.enabled && cronValid p.2.interval)).map
        (fun p => (p.1, ({ interval := p.2.interval, scheduled := true } : Job))) := by
  induction feeds generalizing acc with
  | nil => simp
  | cons p rest ih =>
    obtain ⟨a, b⟩ := p
    have hnd1 : a ∉ rest.map Prod.fst := by
      simp only [List.map_cons, List.nodup_cons] at hnd
      exact hnd.1
    have hndr : (rest.map Prod.fst).Nodup := by
      simp only [List.map_cons, List.nodup_cons] at hnd
      exact hnd.2
    by_cases hb : b.enabled
    · by_cases hcv : cronValid b.interval
      · have hset : alSet acc a ⟨b.interval, true⟩ = acc ++ [(a, ⟨b.interval, true⟩)] :=
          alSet_of_absent acc a _ (hdisj a (by simp))
        have hdisj' : ∀ k, k ∈ rest.map Prod.fst →
            alGet (acc ++ [(a, (⟨b.interval, true⟩ : Job))]) k = none := by
          intro k hk
          have h1 : alGet acc k = none := hdisj k (by simp [hk])
          have hak : a ≠ k := fun heq => hnd1 (heq ▸ hk)
          rw [alGet_append, h1]
          simp [alGet, hak]
        have hstep : List.foldl
            (fun jobs p => if p.2.enabled then createCronJob cronValid jobs p.1 p.2 else jobs)
            acc ((a, b) :: rest) =
          List.foldl
            (fun jobs p => if p.2.enabled then createCronJob cronValid jobs p.1 p.2 else jobs)
            (acc ++ [(a, ⟨b.interval, true⟩)]) rest := by
          rw [List.foldl_cons]
          congr 1
          simp [createCronJob, hb, hcv, hset]
        rw [hstep, ih _ hndr hdisj']
        simp [hb, hcv, List.append_assoc]
      · have hstep : List.foldl
            (fun jobs p => if p.2.enabled then createCronJob cronValid jobs p.1 p.2 else jobs)
            acc ((a, b) :: rest) =
          List.foldl
            (fun jobs p => if p.2.enabled then createCronJob cronValid jobs p.1 p.2 else jobs)
            acc rest := by
          rw [List.foldl_cons]
          congr 1
          simp [createCronJob, hb, hcv]
        rw [hstep, ih acc hndr (fun k hk => hdisj k (by simp [hk]))]
        simp [hb, hcv]
    · simp only [List.foldl_cons, hb, Bool.false_eq_true, if_false]
      rw [ih acc hndr (fun k hk => hdisj k (by simp [hk]))]
      simp [hb]

/-- C7 counterexample: at the reachable stopped state `sEmptyInt` — one
enabled record whose stored interval is the unschedulable `""`, created
by `addFeed(demoUrl, { interval: "" })` — `start()` (once or twice)
turns the engine running but `createCronJob`'s catch skips the record,
so the Job Table stays empty and does not hold one Job per enabled
record. -/
theorem start_skips_unschedulable_counterexample :
    (alGet sEmptyInt.scheduledFeeds (generateFeedId demoUrl)).map ScheduledFeed.enabled =
      some true ∧
    (alGet sEmptyInt.scheduledFeeds (generateFeedId demoUrl)).map ScheduledFeed.interval =
      some "" ∧
    schedStart cvAccepts30 (schedStart cvAccepts30 sEmptyInt) =
      schedStart cvAccepts30 sEmptyInt ∧
    (schedStart cvAccepts30 sEmptyInt).running = true ∧
    (schedStart cvAccepts30 sEmptyInt).activeJobs = [] := by decide

/-- C7 (amended): `start()` is idempotent — calling it twice equals
calling it once from any state, `isRunning()` is true afterwards, a
second call while running changes nothing at all — and starting from
the stopped state (whose Job Table is empty, as `stop()` and
construction guarantee) yields exactly one Job per enabled record whose
stored interval is schedulable, bound to that record's interval, with
no duplicate keys; enabled records with an unschedulable stored
interval are silently skipped. -/
theorem start_idempotent_spec (cronValid : String → Bool) (s : SchedState)
    (hnd : (s.scheduledFeeds.map Prod.fst).Nodup) :
    schedStart cronValid (schedStart cronValid s) = schedStart cronValid s ∧
    (schedStart cronValid s).running = true ∧
    (s.running = true → schedStart cronValid s = s) ∧
    (s.running = false → s.activeJobs = [] →
      (schedStart cronValid s).activeJobs =
        (s.scheduledFeeds.filter (fun p => p.2.enabled && cronValid p.2.interval)).map
          (fun p => (p.1, ({ interval := p.2.interval, scheduled := true } : Job))) ∧
      ((schedStart cronValid s).activeJobs.map Prod.fst).Nodup) := by
  refine ⟨?_, ?_, ?_, ?_⟩
  · by_cases hr : s.running <;> simp [schedStart, hr]
  · by_cases hr : s.running <;> simp [schedStart, hr]
  · intro hr; simp [schedStart, hr]
  · intro hr hjobs
    have heq : (schedStart cronValid s).activeJobs =
        (s.scheduledFeeds.filter (fun p => p.2.enabled && cronValid p.2.interval)).map
          (fun p => (p.1, ({ interval := p.2.interval, scheduled := true } : Job))) := by
      simp only [schedStart, hr, Bool.false_eq_true, if_false]
      rw [hjobs]
      exact jobsFold_eq cronValid s.scheduledFeeds [] hnd (fun k _ => rfl)
    refine ⟨heq, ?_⟩
    rw [heq]
    have hsub : ((s.scheduledFeeds.filter
        (fun p => p.2.enabled && cronValid p.2.interval)).map Prod.fst).Sublist
        (s.scheduledFeeds.map Prod.fst) :=
      (List.filter_sublist _).map _
    have hft : ((s.scheduledFeeds.filter
        (fun p => p.2.enabled && cronValid p.2.interval)).map Prod.fst).Nodup :=
      hnd.sublist hsub
    simpa [List.map_map, Function.comp] using hft

/-- C7 witness: starting the stopped one-feed scheduler twice equals
starting it once, and one start creates exactly the demo feed's job
(its stored interval is accepted by the validator). -/
theorem start_idempotent_spec_witness :
    schedStart cvAccepts (schedStart cvAccepts sOne) = schedStart cvAccepts sOne ∧
    (schedStart cvAccepts sOne).activeJobs =
      (sOne.scheduledFeeds.filter (fun p => p.2.enabled && cvAccepts p.2.interval)).map
        (fun p => (p.1, ({ interval := p.2.interval, scheduled := true } : Job))) := by
  have h := start_idempotent_spec cvAccepts sOne (by decide)
  exact ⟨h.1, (h.2.2.2 (by decide) (by decide)).1⟩

/-- C8 counterexample: `removeFeed` reassigns `stats.totalFeeds` to the
shrunken map size, so the counter drops from 1 to 0 — it is not
monotonically non-decreasing. -/
theorem totalFeeds_decreases_counterexample :
    sOne.stats.totalFeeds = 1 ∧ remDemo.1 = .ok ∧ remDemo.2.stats.totalFeeds = 0 := by decide

theorem fetchAttempts_stats_mono (env : FetchEnv) (url : String) (now maxR : Nat) :
    ∀ (f a : Nat) (s : SchedState),
      s.stats.successfulUpdates ≤
        (fetchAttempts env url now maxR a f s).2.stats.successfulUpdates ∧
      s.stats.failedUpdates ≤ (fetchAttempts env url now maxR a f s).2.stats.failedUpdates := by
  intro f
  induction f with
  | zero => intro a s; simp [fetchAttempts]
  | succ g ih =>
    intro a s
    by_cases hc : ((env.fetch a).success && env.storeOk a) = true
    · simp only [fetchAttempts, hc, if_true]
      simp only [fetchSuccessUpdate]
      split <;> simp
    · simp only [fetchAttempts, hc, Bool.false_eq_true, if_false]
      by_cases he : (a == maxR) = true
      · simp only [he, if_true]
        simp only [fetchFailureUpdate]
        split <;> simp
      · simp only [he, Bool.false_eq_true, if_false]
        exact ih (a + 1) s

/-- C8 (amended): across every scheduler operation, the counters
`successfulUpdates` and `failedUpdates` never decrease; `totalFeeds`,
by contrast, tracks the current map size and so shrinks on removal
(see the counterexample). -/
theorem statsCounters_monotone (op : SchedOp) (s : SchedState) :
    s.stats.successfulUpdates ≤ (applyOp op s).stats.successfulUpdates ∧
    s.stats.failedUpdates ≤ (applyOp op s).stats.failedUpdates := by
  cases op with
  | addF cronValid storeResp now url o =>
    simp only [applyOp, schedAddFeed]
    by_cases hv :
        (validateCronExpression cronValid (jsOrS o.interval s.opts.defaultInterval)).valid = true
    · cases storeResp <;> simp [hv]
    · simp [hv]
  | removeF storeOk feedId =>
    simp only [applyOp, schedRemoveFeed]
    by_cases h : alHas s.scheduledFeeds feedId = true <;> simp [h]
  | updateF cronValid now feedId newInterval =>
    simp only [applyOp, schedUpdateFeedSchedule]
    cases hrec : alGet s.scheduledFeeds feedId with
    | none => simp
    | some feed =>
      by_cases hv : (validateCronExpression cronValid newInterval).valid = true <;> simp [hv]
  | startE cronValid => by_cases hr : s.running <;> simp [applyOp, schedStart, hr]
  | stopE => by_cases hr : s.running <;> simp [applyOp, schedStop, hr]
  | pauseE =>
    simp only [applyOp, schedPause]
    split <;> simp
  | resumeE =>
    simp only [applyOp, schedResume]
    split <;> simp
  | fetchF env optRetry url now =>
    simp only [applyOp, fetchAndUpdateFeed]
    exact fetchAttempts_stats_mono env url now (jsOrN optRetry s.opts.retryAttempts)
      (jsOrN optRetry s.opts.retryAttempts) 1 s

theorem alGet_enabled_filter_map (cronValid : String → Bool)
    (feeds : List (String × ScheduledFeed)) (k : String)
    (f : ScheduledFeed) (hget : alGet feeds k = some f) (hen : f.enabled = true)
    (hcv : cronValid f.interval = true) :
    alGet ((feeds.filter (fun p => p.2.enabled && cronValid p.2.interval)).map
      (fun p => (p.1, ({ interval := p.2.interval, scheduled := true } : Job)))) k =
      some { interval := f.interval, scheduled := true } := by
  induction feeds with
  | nil => simp [alGet] at hget
  | cons p rest ih =>
    obtain ⟨a, b⟩ := p
    by_cases hak : a = k
    · subst hak
      simp only [alGet, if_true, Option.some.injEq] at hget
      subst hget
      simp [hen, hcv, alGet]
    · simp only [alGet, hak, if_false] at hget
      by_cases hb : (b.enabled && cronValid b.interval) = true
      · simp [List.filter_cons, hb, alGet, hak, ih hget]
      · simp [List.filter_cons, hb, ih hget]

/-- C10 counterexample: starting from an empty running scheduler, the
history start → pause → addFeed → resume → updateFeedSchedule contains
no `stop()`/`start()` after the add, yet the new feed's Job exists after
the successful `updateFeedSchedule` — so the Job does not first exist
only after a later stop-then-start. -/
theorem job_created_without_restart_counterexample :
    sPaused.running = true ∧ sPaused.paused = true ∧
    addWhilePaused.1 = .ok (generateFeedId demoUrl) 301000 feedDemo ∧
    alGet addWhilePaused.2.1.activeJobs (generateFeedId demoUrl) = none ∧
    alGet sAfterResume.activeJobs (generateFeedId demoUrl) = none ∧
    updAfterResume.1 = .ok 602000 ∧
    alGet updAfterResume.2.activeJobs (generateFeedId demoUrl) =
      some { interval := "*/10 * * * *", scheduled := true } := by decide

/-- C10 (amended): a successful `addFeed` while the engine is paused
creates no Job (the Job Table is untouched), and `resume()` never adds
entries to the Job Table (it only restarts the jobs already there); the
new feed's Job appears when the table is next repopulated for it — in
particular `stop()` followed by `start()` creates it for an enabled
record whose stored interval is schedulable (a successful
`updateFeedSchedule` while running un-paused does too, as the
counterexample shows). -/
theorem addFeed_paused_resume_no_job (cronValid : String → Bool) (storeResp : Option String)
    (now : Nat) (url : String) (o : FeedOptions) (s : SchedState)
    (hp : s.paused = true) :
    (schedAddFeed cronValid storeResp now url o s).2.1.activeJobs = s.activeJobs ∧
    (∀ t : SchedState, (schedResume t).activeJobs.map Prod.fst = t.activeJobs.map Prod.fst) ∧
    (∀ (t : SchedState) (feedId : String) (f : ScheduledFeed),
      t.running = true → alGet t.scheduledFeeds feedId = some f → f.enabled = true →
      cronValid f.interval = true →
      (t.scheduledFeeds.map Prod.fst).Nodup →
      alGet (schedStart cronValid (schedStop t)).activeJobs feedId =
        some { interval := f.interval, scheduled := true }) := by
  refine ⟨?_, ?_, ?_⟩
  · simp only [schedAddFeed]
    by_cases hv :
        (validateCronExpression cronValid (jsOrS o.interval s.opts.defaultInterval)).valid = true
    · cases storeResp with
      | none => simp [hv, hp]
      | some e => simp [hv]
    · simp [hv]
  · intro t
    simp only [schedResume]
    split
    · rfl
    · simp [List.map_map, Function.comp]
  · intro t feedId f hr hget hen hcv hnd
    have hstop : schedStop t = { t with running := false, paused := false, activeJobs := [] } := by
      simp [schedStop, hr]
    rw [hstop]
    have hstart := jobsFold_eq cronValid t.scheduledFeeds [] hnd (fun k _ => rfl)
    simp only [schedStart, Bool.false_eq_true, if_false]
    rw [hstart]
    exact alGet_enabled_filter_map cronValid t.scheduledFeeds feedId f hget hen hcv

/-- C10 witness: the concrete paused add leaves the job table empty, and
a stop-then-start afterwards creates the demo feed's job. -/
theorem addFeed_paused_resume_no_job_witness :
    (schedAddFeed cvAccepts none 1000 demoUrl demoOpts sPaused).2.1.activeJobs =
      sPaused.activeJobs ∧
    alGet (schedStart cvAccepts (schedStop addWhilePaused.2.1)).activeJobs
      (generateFeedId demoUrl) =
      some { interval := "*/5 * * * *", scheduled := true } := by
  have h := addFeed_paused_resume_no_job cvAccepts none 1000 demoUrl demoOpts sPaused (by decide)
  refine ⟨h.1, ?_⟩
  have h3 := h.2.2 addWhilePaused.2.1 (generateFeedId demoUrl) feedDemo (by decide) (by decide)
    (by decide) (by decide) (by decide)
  rw [h3]; decide
